import Mathlib

/-!
Verification of gym-electric-motor core claims against a shallow embedding.

Part A embeds `StepReferenceGenerator` (reference_generators/step_reference_generator.py)
over exact rationals: numpy array pipelines become `List ℚ` maps, `np.clip` becomes
`min (max · lo) hi`, `np.sign` the three-valued sign, the float `%` the Python modulo,
and `np.roll` a circular rotation.  Random draws are modelled by passing the drawn
sample (or the uniform sample in [0,1]) as an explicit argument.

Part B embeds `StateActionProcessor` (state_action_processors/state_action_processor.py)
as a record of optional overrides around an inner physical system; the inner
physical-system contract and the RandomComponent generator, whose code is not in src,
are modelled from the spec.
-/

/-- Three-valued sign, as `np.sign`: 1 for positive, -1 for negative, 0 at 0. -/
def npSign (x : ℚ) : ℚ :=
  if 0 < x then 1 else if x < 0 then -1 else 0

/-- Interval clipping, as `np.clip(x, lo, hi)`: the maximum with `lo` is applied
first, then the minimum with `hi`. -/
def npClip (x lo hi : ℚ) : ℚ :=
  min (max x lo) hi

/-- Elementwise `np.clip` on a two-element range tuple, as used for
`amplitude_range` and `offset_range`. -/
def clipRange (r : ℚ × ℚ) (lo hi : ℚ) : ℚ × ℚ :=
  (npClip r.1 lo hi, npClip r.2 lo hi)

/-- Python/numpy modulo on rationals: `a % p = a - p * ⌊a / p⌋` (the result has the
sign of the divisor).  At `p = 0` this yields `a`, a junk value never hit by the
claims (frequency is positive there). -/
def fmod (a p : ℚ) : ℚ :=
  a - p * ⌊a / p⌋

/-- Python `int(...)` conversion on a rational: truncation toward zero. -/
def truncInt (q : ℚ) : ℤ :=
  if 0 ≤ q then ⌊q⌋ else ⌈q⌉

/-- Circular right shift by `k`, as `np.roll(xs, k)`: `k` is reduced modulo the
length, the last `k mod n` elements move to the front. -/
def roll (xs : List ℚ) (k : ℤ) : List ℚ :=
  if xs.length = 0 then xs
  else
    let m := (k % (xs.length : ℤ)).toNat
    xs.drop (xs.length - m) ++ xs.take (xs.length - m)

/-- `np.linspace(0, stop, n)`: `n` evenly spaced samples from 0 to `stop`
inclusive; for `n ≥ 2` the step is `stop / (n - 1)`, for `n = 1` the single
sample is the start 0, for `n = 0` the list is empty. -/
def linspace (stop : ℚ) (n : ℕ) : List ℚ :=
  match n with
  | 0 => []
  | 1 => [0]
  | m + 2 => (List.range (m + 2)).map (fun i => (i : ℚ) * (stop / ((m : ℚ) + 1)))

/-- Modelled from the spec: `SubepisodedReferenceGenerator._get_current_value`
(the superclass is not in src) draws uniformly from the range
`[r.1, r.2]`; `u` is the uniform sample in `[0, 1]`, so the drawn value is
`r.1 + u * (r.2 - r.1)`. -/
def getCurrentValue (r : ℚ × ℚ) (u : ℚ) : ℚ :=
  (r.2 - r.1) * u + r.1

/-- `StepReferenceGenerator.set_modules`, amplitude part (lines 31-35):
the amplitude range is clipped into `[0, (limit_margin_high - limit_margin_low)/2]`. -/
def setModulesAmplitudeRange (ar : ℚ × ℚ) (lm : ℚ × ℚ) : ℚ × ℚ :=
  clipRange ar 0 ((lm.2 - lm.1) / 2)

/-- `StepReferenceGenerator.set_modules`, offset part (line 36): the offset range
is clipped into the limit margin. -/
def setModulesOffsetRange (orr : ℚ × ℚ) (lm : ℚ × ℚ) : ℚ × ℚ :=
  clipRange orr lm.1 lm.2

/-- The amplitude drawn in `_reset_reference` (line 39), after the
`set_modules` clamp, from the uniform sample `uA`. -/
def drawnAmplitude (ar lm : ℚ × ℚ) (uA : ℚ) : ℚ :=
  getCurrentValue (setModulesAmplitudeRange ar lm) uA

/-- The per-segment offset range computed in `_reset_reference` (lines 41-45):
the stored offset range clipped into
`[limit_margin_low + amplitude, limit_margin_high - amplitude]`. -/
def resetOffsetRange (orr lm : ℚ × ℚ) (amplitude : ℚ) : ℚ × ℚ :=
  clipRange orr (lm.1 + amplitude) (lm.2 - amplitude)

/-- The offset drawn in `_reset_reference` (line 46), after both the
`set_modules` clamp and the per-segment clamp, from uniform samples `uA`
(amplitude) and `uO` (offset). -/
def drawnOffset (ar orr lm : ℚ × ℚ) (uA uO : ℚ) : ℚ :=
  getCurrentValue (resetOffsetRange (setModulesOffsetRange orr lm) lm (drawnAmplitude ar lm uA)) uO

/-- The segment computation of `StepReferenceGenerator._reset_reference`
(lines 47-60) as a function of the drawn parameters: time grid by
`np.linspace(0, (n-1)*tau, n)`, square wave
`sign(frequency * (t mod 1/frequency) - duty)`, circular shift by
`int((1/frequency/tau) * phase)` samples, then `amplitude * x + offset`
hard-clipped to the limit margin `lm`. -/
def stepSegment (lm : ℚ × ℚ) (tau : ℚ) (n : ℕ) (amplitude frequency offset duty phase : ℚ) :
    List ℚ :=
  let t := linspace (((n : ℚ) - 1) * tau) n
  let x1 := t.map (fun ti => frequency * fmod ti (1 / frequency))
  let x2 := x1.map (fun v => v - duty)
  let x3 := x2.map npSign
  let stepsPerPeriod := 1 / frequency / tau
  let x4 := roll x3 (truncInt (stepsPerPeriod * phase))
  let r1 := x4.map (fun v => amplitude * v + offset)
  r1.map (fun v => npClip v lm.1 lm.2)

/-- `StepReferenceGenerator._reset_reference` (lines 38-60) in full: the
amplitude, frequency and offset draws (from the `set_modules`-clamped ranges)
followed by the segment computation.  `uA`, `uF`, `uO` are the uniform samples
of the three draws, `duty` the triangular draw, `phase` the uniform phase. -/
def resetReference (ar fr orr : ℚ × ℚ) (lm : ℚ × ℚ) (tau : ℚ) (n : ℕ)
    (uA uF uO duty phase : ℚ) : List ℚ :=
  let amplitude := getCurrentValue (setModulesAmplitudeRange ar lm) uA
  let frequency := getCurrentValue fr uF
  let offR := clipRange (setModulesOffsetRange orr lm) (lm.1 + amplitude) (lm.2 - amplitude)
  let offset := getCurrentValue offR uO
  stepSegment lm tau n amplitude frequency offset duty phase

/-- The segment formula as the spec states it for claim C2: on the grid
`t_i = i * tau`, the sign sequence `sign(frequency * (t_i mod 1/frequency) - duty)`,
circularly shifted by the phase-derived sample count, scaled by the amplitude,
offset, and clipped to the limit margin. -/
def rederiveSegment (lm : ℚ × ℚ) (tau : ℚ) (n : ℕ)
    (amplitude frequency offset duty phase : ℚ) : List ℚ :=
  let signSeq :=
    (List.range n).map (fun i => npSign (frequency * fmod ((i : ℚ) * tau) (1 / frequency) - duty))
  let shifted := roll signSeq (truncInt (1 / frequency / tau * phase))
  shifted.map (fun v => npClip (amplitude * v + offset) lm.1 lm.2)

/-- The segment computation as claim C3 states it: identical to `stepSegment`
except that the circular shift count is `round(phase / frequency / tau)`. -/
def stepSegmentRound (lm : ℚ × ℚ) (tau : ℚ) (n : ℕ)
    (amplitude frequency offset duty phase : ℚ) : List ℚ :=
  let t := linspace (((n : ℚ) - 1) * tau) n
  let x1 := t.map (fun ti => frequency * fmod ti (1 / frequency))
  let x2 := x1.map (fun v => v - duty)
  let x3 := x2.map npSign
  let x4 := roll x3 (round (phase / frequency / tau))
  let r1 := x4.map (fun v => amplitude * v + offset)
  r1.map (fun v => npClip v lm.1 lm.2)

/-- The segment computation with the shift count written as the floor of
`phase / frequency / tau`: the amended form of claim C3. -/
def stepSegmentFloor (lm : ℚ × ℚ) (tau : ℚ) (n : ℕ)
    (amplitude frequency offset duty phase : ℚ) : List ℚ :=
  let t := linspace (((n : ℚ) - 1) * tau) n
  let x1 := t.map (fun ti => frequency * fmod ti (1 / frequency))
  let x2 := x1.map (fun v => v - duty)
  let x3 := x2.map npSign
  let x4 := roll x3 ⌊phase / frequency / tau⌋
  let r1 := x4.map (fun v => amplitude * v + offset)
  r1.map (fun v => npClip v lm.1 lm.2)

/-- The inner physical system wrapped by a `StateActionProcessor` stage.
Modelled from the spec: the Physical System contract (spec section 6) is an
external collaborator, so its data is abstracted: a discrete action space given
as the list of its member actions, declarative state-space bounds, parallel
limit and nominal vectors, the ordered state names, the fixed step duration
`tau`, an internal simulation clock, a fixed state vector returned by
`simulate`/`reset`, and the RandomComponent data (whether the layer exposes
randomness, and its current seed). -/
structure InnerPS where
  actionSpace : List ℕ
  stateSpace : List ℚ × List ℚ
  limits : List ℚ
  nominalState : List ℚ
  stateNames : List String
  tau : ℚ
  time : ℚ
  initState : List ℚ
  isRandomComponent : Bool
  seedVal : Option ℕ
deriving DecidableEq

/-- Modelled from the spec: `simulate(action) -> state` on the inner physical
system advances the internal simulation time by `tau` and returns the next
state (abstracted as the stored state vector). -/
def innerSimulate (ps : InnerPS) (_a : ℕ) : InnerPS × List ℚ :=
  ({ ps with time := ps.time + ps.tau }, ps.initState)

/-- Modelled from the spec: `reset() -> state` on the inner physical system
restarts the simulation clock and returns the initial state. -/
def innerReset (ps : InnerPS) : InnerPS × List ℚ :=
  ({ ps with time := 0 }, ps.initState)

/-- Modelled from the spec: `RandomComponent.seed` on the inner layer re-derives
the layer generator from the given seed. -/
def innerSeed (ps : InnerPS) (v : Option ℕ) : InnerPS :=
  { ps with seedVal := v }

/-- A `StateActionProcessor` stage: the inner physical system together with the
optional overrides `_action_space`, `_state_space`, `_limits`, `_nominal_state`
and `_state_names` (`none` models Python `None`), the cached `_state_positions`
mapping, the snapshotted `_tau`, and the RandomComponent state of the stage
itself (modelled from the spec as a seed sequence plus a rotation counter). -/
structure Stage where
  physicalSystem : InnerPS
  actionSpaceOv : Option (List ℕ)
  stateSpaceOv : Option (List ℚ × List ℚ)
  limitsOv : Option (List ℚ)
  nominalStateOv : Option (List ℚ)
  stateNamesOv : Option (List String)
  statePositions : String → Option ℕ
  tauOv : Option ℚ
  genIndex : ℕ
  seedSeq : Option ℕ

/-- `StateActionProcessor.action_space` (lines 12-19): the stage override if
set, else the action space of the inner physical system. -/
def Stage.actionSpace (s : Stage) : List ℕ :=
  match s.actionSpaceOv with
  | none => s.physicalSystem.actionSpace
  | some sp => sp

/-- `StateActionProcessor.state_space` (lines 25-32). -/
def Stage.stateSpace (s : Stage) : List ℚ × List ℚ :=
  match s.stateSpaceOv with
  | none => s.physicalSystem.stateSpace
  | some sp => sp

/-- `StateActionProcessor.limits` (lines 43-47). -/
def Stage.limits (s : Stage) : List ℚ :=
  match s.limitsOv with
  | none => s.physicalSystem.limits
  | some l => l

/-- `StateActionProcessor.nominal_state` (lines 53-57). -/
def Stage.nominalState (s : Stage) : List ℚ :=
  match s.nominalStateOv with
  | none => s.physicalSystem.nominalState
  | some ns => ns

/-- `StateActionProcessor.state_names` (lines 59-63). -/
def Stage.stateNames (s : Stage) : List String :=
  match s.stateNamesOv with
  | none => s.physicalSystem.stateNames
  | some sn => sn

/-- One Python dict assignment `d[key] = v`: a later assignment overwrites an
earlier one for the same key. -/
def dictAssign (d : String → Option ℕ) (k : String) (v : ℕ) : String → Option ℕ :=
  fun q => if q = k then some v else d q

/-- The dict comprehension `{key: index for index, key in enumerate(names)}` of
`set_physical_system` (line 78), assigning in enumeration order starting at
index `i`. -/
def enumAssign : ℕ → List String → (String → Option ℕ) → (String → Option ℕ)
  | _, [], d => d
  | i, k :: ks, d => enumAssign (i + 1) ks (dictAssign d k i)

/-- The `_state_positions` mapping built by `set_physical_system` (line 78). -/
def buildStatePositions (names : List String) : String → Option ℕ :=
  enumAssign 0 names (fun _ => none)

/-- `StateActionProcessor.set_physical_system` (lines 74-80): stores the inner
system, snapshots its action space, state names, name-to-index mapping and
`tau` into the stage fields, and returns the (updated) stage itself. -/
def Stage.setPhysicalSystem (s : Stage) (ps : InnerPS) : Stage :=
  { s with
    physicalSystem := ps
    actionSpaceOv := some ps.actionSpace
    stateNamesOv := some ps.stateNames
    statePositions := buildStatePositions ps.stateNames
    tauOv := some ps.tau }

/-- `StateActionProcessor.seed` (lines 82-84): the seed is forwarded to the
inner layer exactly when the inner layer is a RandomComponent; nothing else
happens — in particular the stage generator fields are untouched. -/
def Stage.seed (s : Stage) (v : Option ℕ) : Stage :=
  if s.physicalSystem.isRandomComponent then
    { s with physicalSystem := innerSeed s.physicalSystem v }
  else s

/-- `StateActionProcessor.simulate` (lines 89-90): delegates directly to the
inner physical system; the mutated inner system is kept inside the stage and
the simulated state vector is returned. -/
def Stage.simulate (s : Stage) (a : ℕ) : Stage × List ℚ :=
  ({ s with physicalSystem := (innerSimulate s.physicalSystem a).1 },
    (innerSimulate s.physicalSystem a).2)

/-- Modelled from the spec: `RandomComponent.next_generator` rotates the stage
generator to the next member of its seed sequence. -/
def Stage.nextGenerator (s : Stage) : Stage :=
  { s with genIndex := s.genIndex + 1 }

/-- `StateActionProcessor.reset` (lines 92-94): first `next_generator()`, then
reset is delegated to the inner layer and the inner reset state returned. -/
def Stage.reset (s : Stage) : Stage × List ℚ :=
  let s1 := s.nextGenerator
  ({ s1 with physicalSystem := (innerReset s1.physicalSystem).1 },
    (innerReset s1.physicalSystem).2)

/-- A concrete inner physical system for witnesses and counterexamples. -/
def psA : InnerPS :=
  { actionSpace := [0, 1]
    stateSpace := ([0], [1])
    limits := [1, 2]
    nominalState := [0, 1]
    stateNames := ["omega", "torque"]
    tau := 1
    time := 0
    initState := [0, 0]
    isRandomComponent := true
    seedVal := none }

/-- A concrete stage with no overrides set, wrapping `psA`. -/
def stA : Stage :=
  { physicalSystem := psA
    actionSpaceOv := none
    stateSpaceOv := none
    limitsOv := none
    nominalStateOv := none
    stateNamesOv := none
    statePositions := fun _ => none
    tauOv := none
    genIndex := 0
    seedSeq := some 7 }

/-- The same stage with a different stage-generator state, for claim C9. -/
def stB : Stage :=
  { stA with seedSeq := some 8 }

theorem npClip_mem (x lo hi : ℚ) (h : lo ≤ hi) :
    lo ≤ npClip x lo hi ∧ npClip x lo hi ≤ hi :=
  ⟨le_min (le_max_right x lo) h, min_le_right _ _⟩

theorem interpMemBounds (a b u lo hi : ℚ) (ha1 : lo ≤ a) (ha2 : a ≤ hi)
    (hb1 : lo ≤ b) (hb2 : b ≤ hi) (hu0 : 0 ≤ u) (hu1 : u ≤ 1) :
    lo ≤ (b - a) * u + a ∧ (b - a) * u + a ≤ hi := by
  constructor
  · nlinarith [mul_nonneg hu0 (sub_nonneg.mpr hb1), mul_nonneg (sub_nonneg.mpr hu1) (sub_nonneg.mpr ha1)]
  · nlinarith [mul_nonneg hu0 (sub_nonneg.mpr hb2), mul_nonneg (sub_nonneg.mpr hu1) (sub_nonneg.mpr ha2)]

/-- C1: every sample returned by `_reset_reference` lies within the declared
limit margin: the generated array is hard-clipped to
`[limit_margin_low, limit_margin_high]` before any consumer can observe it. -/
theorem c1_reference_within_limit_margin (ar fr orr : ℚ × ℚ) (lm : ℚ × ℚ)
    (tau : ℚ) (n : ℕ) (uA uF uO duty phase : ℚ) (hlm : lm.1 ≤ lm.2) :
    ∀ r ∈ resetReference ar fr orr lm tau n uA uF uO duty phase,
      lm.1 ≤ r ∧ r ≤ lm.2 := by
  intro r hr
  simp only [resetReference, stepSegment, List.mem_map] at hr
  obtain ⟨v, _, rfl⟩ := hr
  exact npClip_mem v lm.1 lm.2 hlm

theorem c1_reference_within_limit_margin_witness :
    (0 : ℚ) ∈ resetReference (0, 0) (1, 1) (0, 0) (-1, 1) 1 1 0 0 0 0 0 ∧
      ((-1 : ℚ) ≤ 0 ∧ (0 : ℚ) ≤ 1) :=
  ⟨by
    norm_num [resetReference, stepSegment, linspace, getCurrentValue,
      setModulesAmplitudeRange, setModulesOffsetRange, clipRange, npClip, npSign,
      fmod, truncInt, roll],
   c1_reference_within_limit_margin (0, 0) (1, 1) (0, 0) (-1, 1) 1 1 0 0 0 0 0
     (by norm_num) 0
     (by
       norm_num [resetReference, stepSegment, linspace, getCurrentValue,
         setModulesAmplitudeRange, setModulesOffsetRange, clipRange, npClip, npSign,
         fmod, truncInt, roll])⟩

theorem linspace_grid (tau : ℚ) (n : ℕ) :
    linspace (((n : ℚ) - 1) * tau) n = (List.range n).map (fun i => (i : ℚ) * tau) := by
  match n with
  | 0 => rfl
  | 1 =>
    rw [show List.range 1 = [0] from rfl]
    simp [linspace]
  | m + 2 =>
    have hm : ((m : ℚ) + 1) ≠ 0 := by positivity
    have hstop : (((m + 2 : ℕ) : ℚ) - 1) * tau / ((m : ℚ) + 1) = tau := by
      push_cast
      field_simp
      ring
    simp only [linspace]
    rw [hstop]

/-- C2: for fixed drawn parameters, the stored segment equals the re-derived
formula `clip(amplitude * sign(frequency * (t_i mod 1/frequency) - duty) + offset)`
on the grid `t_i = i * tau`, with the circular shift by the phase-derived sample
count applied: the segment is a deterministic function of the drawn parameters. -/
theorem c2_segment_rederivable (lm : ℚ × ℚ) (tau : ℚ) (n : ℕ)
    (a f o d ph : ℚ) :
    stepSegment lm tau n a f o d ph = rederiveSegment lm tau n a f o d ph := by
  simp only [stepSegment, rederiveSegment, linspace_grid, List.map_map]
  rfl

/-- C3 counterexample: with limit margin (-2,2), tau = 1, segment length 4,
amplitude 1, frequency 1/2, offset 0, duty 1/2 and phase 7/20, the code shifts
by `int(2 * 0.35) = 0` samples while `round(phase / frequency / tau) = round(0.7) = 1`,
and the two resulting segments differ. -/
theorem c3_counterexample :
    stepSegment (-2, 2) 1 4 1 (1/2) 0 (1/2) (7/20) ≠
      stepSegmentRound (-2, 2) 1 4 1 (1/2) 0 (1/2) (7/20) := by
  have h1 : stepSegment (-2, 2) 1 4 1 (1/2) 0 (1/2) (7/20) = [-1, 0, -1, 0] := by
    norm_num [stepSegment, linspace, npClip, npSign, fmod, truncInt, roll,
      List.range_succ]
  have h2 : stepSegmentRound (-2, 2) 1 4 1 (1/2) 0 (1/2) (7/20) = [0, -1, 0, -1] := by
    norm_num [stepSegmentRound, linspace, npClip, npSign, fmod, truncInt, roll,
      round_eq, List.range_succ]
  rw [h1, h2]
  norm_num

/-- C3 (amended): the square-wave sequence is circularly shifted by
`int(steps_per_period * phase)` samples, i.e. by the floor (truncation) of
`phase / frequency / tau`, not by its rounding. -/
theorem c3_amended_floor_shift (lm : ℚ × ℚ) (tau : ℚ) (n : ℕ) (a f o d ph : ℚ)
    (hph : 0 ≤ ph) (hf : 0 < f) (ht : 0 < tau) :
    stepSegment lm tau n a f o d ph = stepSegmentFloor lm tau n a f o d ph := by
  have h1 : 1 / f / tau * ph = ph / f / tau := by ring
  have h0 : 0 ≤ ph / f / tau := by positivity
  have h2 : truncInt (1 / f / tau * ph) = ⌊ph / f / tau⌋ := by
    rw [h1, truncInt, if_pos h0]
  simp only [stepSegment, stepSegmentFloor, h2]

theorem c3_amended_floor_shift_witness :
    stepSegment (-2, 2) 1 4 1 (1/2) 0 (1/2) (7/20) =
      stepSegmentFloor (-2, 2) 1 4 1 (1/2) 0 (1/2) (7/20) :=
  c3_amended_floor_shift (-2, 2) 1 4 1 (1/2) 0 (1/2) (7/20)
    (by norm_num) (by norm_num) (by norm_num)

theorem amplitudeDrawBounds (ar lm : ℚ × ℚ) (u : ℚ)
    (hlm : lm.1 ≤ lm.2) (hu0 : 0 ≤ u) (hu1 : u ≤ 1) :
    0 ≤ drawnAmplitude ar lm u ∧ drawnAmplitude ar lm u ≤ (lm.2 - lm.1) / 2 := by
  have hs : (0 : ℚ) ≤ (lm.2 - lm.1) / 2 := by linarith
  have h1 := npClip_mem ar.1 0 ((lm.2 - lm.1) / 2) hs
  have h2 := npClip_mem ar.2 0 ((lm.2 - lm.1) / 2) hs
  have h := interpMemBounds (npClip ar.1 0 ((lm.2 - lm.1) / 2))
    (npClip ar.2 0 ((lm.2 - lm.1) / 2)) u 0 ((lm.2 - lm.1) / 2)
    h1.1 h1.2 h2.1 h2.2 hu0 hu1
  simpa [drawnAmplitude, getCurrentValue, setModulesAmplitudeRange, clipRange] using h

/-- C4: after `set_modules` has clamped the amplitude range, every drawn
amplitude satisfies `0 ≤ amplitude ≤ (limit_margin_high - limit_margin_low) / 2`,
for any amplitude range passed at construction. -/
theorem c4_amplitude_clamped_to_half_span (ar lm : ℚ × ℚ) (u : ℚ)
    (hlm : lm.1 ≤ lm.2) (hu0 : 0 ≤ u) (hu1 : u ≤ 1) :
    0 ≤ drawnAmplitude ar lm u ∧ drawnAmplitude ar lm u ≤ (lm.2 - lm.1) / 2 :=
  amplitudeDrawBounds ar lm u hlm hu0 hu1

theorem c4_amplitude_clamped_to_half_span_witness :
    0 ≤ drawnAmplitude (0, 5) (-1, 1) (1/2) ∧
      drawnAmplitude (0, 5) (-1, 1) (1/2) ≤ ((1 : ℚ) - (-1)) / 2 :=
  c4_amplitude_clamped_to_half_span (0, 5) (-1, 1) (1/2)
    (by norm_num) (by norm_num) (by norm_num)

/-- C5: the drawn offset satisfies
`limit_margin_low + amplitude ≤ offset ≤ limit_margin_high - amplitude`,
for any offset range passed at construction. -/
theorem c5_offset_within_margin_minus_amplitude (ar orr lm : ℚ × ℚ) (uA uO : ℚ)
    (hlm : lm.1 ≤ lm.2) (huA0 : 0 ≤ uA) (huA1 : uA ≤ 1)
    (huO0 : 0 ≤ uO) (huO1 : uO ≤ 1) :
    lm.1 + drawnAmplitude ar lm uA ≤ drawnOffset ar orr lm uA uO ∧
      drawnOffset ar orr lm uA uO ≤ lm.2 - drawnAmplitude ar lm uA := by
  obtain ⟨ha0, ha2⟩ := amplitudeDrawBounds ar lm uA hlm huA0 huA1
  have hord : lm.1 + drawnAmplitude ar lm uA ≤ lm.2 - drawnAmplitude ar lm uA := by
    linarith
  have h1 := npClip_mem (npClip orr.1 lm.1 lm.2)
    (lm.1 + drawnAmplitude ar lm uA) (lm.2 - drawnAmplitude ar lm uA) hord
  have h2 := npClip_mem (npClip orr.2 lm.1 lm.2)
    (lm.1 + drawnAmplitude ar lm uA) (lm.2 - drawnAmplitude ar lm uA) hord
  have h := interpMemBounds (npClip (npClip orr.1 lm.1 lm.2)
      (lm.1 + drawnAmplitude ar lm uA) (lm.2 - drawnAmplitude ar lm uA))
    (npClip (npClip orr.2 lm.1 lm.2)
      (lm.1 + drawnAmplitude ar lm uA) (lm.2 - drawnAmplitude ar lm uA))
    uO (lm.1 + drawnAmplitude ar lm uA) (lm.2 - drawnAmplitude ar lm uA)
    h1.1 h1.2 h2.1 h2.2 huO0 huO1
  simpa [drawnOffset, getCurrentValue, resetOffsetRange, setModulesOffsetRange,
    clipRange] using h

theorem c5_offset_within_margin_minus_amplitude_witness :
    (-1 : ℚ) + drawnAmplitude (0, 5) (-1, 1) (1/2) ≤
        drawnOffset (0, 5) (-3, 3) (-1, 1) (1/2) (1/2) ∧
      drawnOffset (0, 5) (-3, 3) (-1, 1) (1/2) (1/2) ≤
        (1 : ℚ) - drawnAmplitude (0, 5) (-1, 1) (1/2) :=
  c5_offset_within_margin_minus_amplitude (0, 5) (-3, 3) (-1, 1) (1/2) (1/2)
    (by norm_num) (by norm_num) (by norm_num) (by norm_num) (by norm_num)

/-- C6: each of the five properties returns the stage override when one is set,
and otherwise returns exactly the inner physical-system value, so a stage with
no overrides set is a pass-through identity for all five properties. -/
theorem c6_properties_pass_through_or_override (s : Stage) :
    (s.actionSpaceOv = none → s.actionSpace = s.physicalSystem.actionSpace) ∧
    (∀ v, s.actionSpaceOv = some v → s.actionSpace = v) ∧
    (s.stateSpaceOv = none → s.stateSpace = s.physicalSystem.stateSpace) ∧
    (∀ v, s.stateSpaceOv = some v → s.stateSpace = v) ∧
    (s.limitsOv = none → s.limits = s.physicalSystem.limits) ∧
    (∀ v, s.limitsOv = some v → s.limits = v) ∧
    (s.nominalStateOv = none → s.nominalState = s.physicalSystem.nominalState) ∧
    (∀ v, s.nominalStateOv = some v → s.nominalState = v) ∧
    (s.stateNamesOv = none → s.stateNames = s.physicalSystem.stateNames) ∧
    (∀ v, s.stateNamesOv = some v → s.stateNames = v) := by
  refine ⟨fun h => ?_, fun v h => ?_, fun h => ?_, fun v h => ?_, fun h => ?_,
    fun v h => ?_, fun h => ?_, fun v h => ?_, fun h => ?_, fun v h => ?_⟩ <;>
    simp [Stage.actionSpace, Stage.stateSpace, Stage.limits, Stage.nominalState,
      Stage.stateNames, h]

theorem c6_properties_pass_through_or_override_witness :
    stA.actionSpace = stA.physicalSystem.actionSpace ∧
    stA.stateSpace = stA.physicalSystem.stateSpace ∧
    stA.limits = stA.physicalSystem.limits ∧
    stA.nominalState = stA.physicalSystem.nominalState ∧
    stA.stateNames = stA.physicalSystem.stateNames :=
  ⟨(c6_properties_pass_through_or_override stA).1 rfl,
   (c6_properties_pass_through_or_override stA).2.2.1 rfl,
   (c6_properties_pass_through_or_override stA).2.2.2.2.1 rfl,
   (c6_properties_pass_through_or_override stA).2.2.2.2.2.2.1 rfl,
   (c6_properties_pass_through_or_override stA).2.2.2.2.2.2.2.2.1 rfl⟩

/-- C7 counterexample: the action 5 is outside the declared action space of
`stA`, yet `simulate` runs the inner physical system anyway (its simulation
clock advances), so the rejected step does mutate the inner system, contrary to
the claim that validation happens before simulation. -/
theorem c7_counterexample :
    5 ∉ stA.actionSpace ∧
      (stA.simulate 5).1.physicalSystem ≠ stA.physicalSystem := by
  constructor
  · decide
  · intro h
    have ht := congrArg InnerPS.time h
    norm_num [Stage.simulate, innerSimulate, stA, psA] at ht

/-- C7 (amended): `simulate` performs no membership validation: even for an
action outside the declared action space it delegates unconditionally to the
inner physical system, which is invoked (its simulation time advances by `tau`)
and whose returned state is passed through unchanged. -/
theorem c7_amended_simulate_unvalidated (s : Stage) (a : ℕ)
    (_h : a ∉ s.actionSpace) :
    (s.simulate a).1.physicalSystem = (innerSimulate s.physicalSystem a).1 ∧
    (s.simulate a).2 = (innerSimulate s.physicalSystem a).2 ∧
    (s.simulate a).1.physicalSystem.time =
      s.physicalSystem.time + s.physicalSystem.tau := by
  refine ⟨rfl, rfl, ?_⟩
  simp [Stage.simulate, innerSimulate]

theorem c7_amended_simulate_unvalidated_witness :
    (stA.simulate 5).1.physicalSystem = (innerSimulate stA.physicalSystem 5).1 ∧
    (stA.simulate 5).2 = (innerSimulate stA.physicalSystem 5).2 ∧
    (stA.simulate 5).1.physicalSystem.time =
      stA.physicalSystem.time + stA.physicalSystem.tau :=
  c7_amended_simulate_unvalidated stA 5 (by decide)

/-- C8: `reset` rotates the stage generator by `next_generator` and delegates
reset to the inner layer, returning the inner reset state. -/
theorem c8_reset_rotates_then_delegates (s : Stage) :
    (s.reset).1.genIndex = s.genIndex + 1 ∧
    (s.reset).1.physicalSystem = (innerReset s.physicalSystem).1 ∧
    (s.reset).2 = (innerReset s.physicalSystem).2 :=
  ⟨rfl, rfl, rfl⟩

/-- C9 counterexample: after `seed(42)`, two stages that differ only in their
own generator state still differ, and the stage generator state is simply left
unchanged: the stage generator is not re-derived deterministically from the
top-level seed, so a fixed seed does not reproduce the stage randomness. -/
theorem c9_counterexample :
    (stA.seed (some 42)).seedSeq ≠ (stB.seed (some 42)).seedSeq ∧
      (stA.seed (some 42)).seedSeq = stA.seedSeq := by
  constructor
  · decide
  · rfl

/-- C9 (amended): `seed` forwards the seed to the inner layer exactly when the
inner layer is a RandomComponent, and leaves the stage generator state (seed
sequence and rotation counter) untouched: the stage does not re-derive its own
generator from the seed. -/
theorem c9_amended_seed_forwarding_only (s : Stage) (v : Option ℕ) :
    (s.seed v).seedSeq = s.seedSeq ∧
    (s.seed v).genIndex = s.genIndex ∧
    (s.seed v).physicalSystem =
      (if s.physicalSystem.isRandomComponent then innerSeed s.physicalSystem v
       else s.physicalSystem) := by
  rcases Bool.eq_false_or_eq_true s.physicalSystem.isRandomComponent with h | h <;>
    simp [Stage.seed, h]

theorem enumAssign_no_key (ks : List String) (q : String) :
    ∀ (i : ℕ) (d : String → Option ℕ), q ∉ ks → enumAssign i ks d q = d q := by
  induction ks with
  | nil => intro i d _; rfl
  | cons k ks ih =>
    intro i d hq
    have hqk : q ≠ k := fun he => hq (he ▸ List.mem_cons_self k ks)
    have hqks : q ∉ ks := fun hm => hq (List.mem_cons_of_mem k hm)
    simp only [enumAssign]
    rw [ih (i + 1) (dictAssign d k i) hqks]
    simp [dictAssign, hqk]

theorem enumAssign_get (ks : List String) (hnd : ks.Nodup) :
    ∀ (i j : ℕ) (h : j < ks.length) (d : String → Option ℕ),
      enumAssign i ks d (ks.get ⟨j, h⟩) = some (i + j) := by
  induction ks with
  | nil => intro i j h d; exact absurd h (Nat.not_lt_zero j)
  | cons k ks ih =>
    intro i j h d
    match j with
    | 0 =>
      simp only [enumAssign, List.get]
      rw [enumAssign_no_key ks k (i + 1) (dictAssign d k i)
        (List.nodup_cons.mp hnd).1]
      simp [dictAssign]
    | j' + 1 =>
      simp only [enumAssign, List.get]
      rw [ih (List.nodup_cons.mp hnd).2 (i + 1) j' (by simpa using h)
        (dictAssign d k i)]
      congr 1
      omega

theorem buildStatePositions_get (names : List String) (hnd : names.Nodup)
    (j : ℕ) (h : j < names.length) :
    buildStatePositions names (names.get ⟨j, h⟩) = some j := by
  have hg := enumAssign_get names hnd 0 j h (fun _ => none)
  simpa using hg

/-- C10: `set_physical_system` always succeeds, also on re-attachment; it
snapshots the attached system action space, state names and `tau` into the
stage fields, rebuilds the name-to-index mapping so that the i-th state name
maps to i (state names identify distinct quantities, hence the duplicate-free
hypothesis), and later changes to the inner system are not reflected by the
stage properties, which keep returning the snapshot. -/
theorem c10_set_physical_system_snapshots (s : Stage) (ps ps2 : InnerPS)
    (hnd : ps.stateNames.Nodup) :
    (s.setPhysicalSystem ps).physicalSystem = ps ∧
    (s.setPhysicalSystem ps).actionSpaceOv = some ps.actionSpace ∧
    (s.setPhysicalSystem ps).stateNamesOv = some ps.stateNames ∧
    (s.setPhysicalSystem ps).tauOv = some ps.tau ∧
    (∀ i, (h : i < ps.stateNames.length) →
      (s.setPhysicalSystem ps).statePositions (ps.stateNames.get ⟨i, h⟩) = some i) ∧
    ((s.setPhysicalSystem ps).setPhysicalSystem ps2).actionSpaceOv =
      some ps2.actionSpace ∧
    { s.setPhysicalSystem ps with physicalSystem := ps2 }.actionSpace =
      ps.actionSpace ∧
    { s.setPhysicalSystem ps with physicalSystem := ps2 }.stateNames =
      ps.stateNames := by
  refine ⟨rfl, rfl, rfl, rfl, ?_, rfl, ?_, ?_⟩
  · intro i h
    exact buildStatePositions_get ps.stateNames hnd i h
  · simp [Stage.actionSpace, Stage.setPhysicalSystem]
  · simp [Stage.stateNames, Stage.setPhysicalSystem]

theorem c10_set_physical_system_snapshots_witness :
    (stA.setPhysicalSystem psA).statePositions "torque" = some 1 ∧
    (stA.setPhysicalSystem psA).actionSpaceOv = some psA.actionSpace :=
  ⟨(c10_set_physical_system_snapshots stA psA psA (by decide)).2.2.2.2.1 1
     (by decide),
   (c10_set_physical_system_snapshots stA psA psA (by decide)).2.1⟩
